import Mathlib

/-!
Shallow embedding of the core of `getalternative/adyen-slack-assistant`
(permission evaluation, approval workflow, MCP tool bridge), translated
from the Go sources under `internal/permissions`, `internal/approval`,
`internal/config`, `internal/adyen` and `cmd/processor`, together with
proofs of the behavioural properties stated about them.

Modelling conventions:
- Go `int`/`int64` values (amounts, Unix timestamps, request ids) are
  modelled as `Int`; no claim here depends on machine-width overflow.
- Go maps used as finite lookups (`permissions.ActionType`,
  `PermissionsConfig.Actions`) are modelled as functions with a default,
  mirroring Go's zero-value indexing, or as `Option`-returning lookups
  where the Go code checks the `ok` flag.
- Go slices are `List`s; a `nil` slice is `[]`.
- The external collaborators (Slack user-group lookup, DynamoDB store,
  the MCP child process) are modelled as explicit parameters: a lookup
  function returning `Except`, an association-list store with a fault
  flag per store call, and a one-shot answer value for the bridge.
- JSON numbers reaching `extractAmount` are modelled as integers
  (`float64 → int` truncation is identity on the integral values every
  claim is about).
-/

namespace AdyenSlack

/-- JSON-like values, standing in for Go `interface{}` as produced by
`encoding/json` (`map[string]interface{}`, `[]interface{}`, `float64`,
`string`, `bool`, `nil`). Numbers are modelled as `Int`. -/
inductive JSONValue where
  | null : JSONValue
  | bool (b : Bool) : JSONValue
  | num (n : Int) : JSONValue
  | str (s : String) : JSONValue
  | arr (xs : List JSONValue) : JSONValue
  | obj (fields : List (String × JSONValue)) : JSONValue

/-- Lookup of a key in a JSON object's field list (first binding wins,
as for a Go map with distinct keys). -/
def lookupField : List (String × JSONValue) → String → Option JSONValue
  | [], _ => none
  | (k, v) :: rest, key => if k == key then some v else lookupField rest key

/-! ## Configuration (`internal/config/config.go`) -/

/-- `config.Action`: per-category policy. -/
structure Action where
  Level : String
  Approve : Bool
  MaxAmount : Int
deriving Repr, DecidableEq

/-- `config.RoleDefinition`. -/
structure RoleDefinition where
  Users : List String
  Groups : List String
deriving Repr, DecidableEq

/-- `config.RolesConfig`. -/
structure RolesConfig where
  Admin : RoleDefinition
deriving Repr, DecidableEq

/-- `config.PermissionsConfig`. `Actions` is the Go map
`map[string]Action`, modelled as an `Option`-returning lookup because
the Go code reads it with the `ok` flag. -/
structure PermissionsConfig where
  Channels : List String
  Roles : RolesConfig
  Actions : String → Option Action
  AuditChannel : String

/-! ## Permission checker (`internal/permissions/permissions.go`) -/

/-- `permissions.contains`: linear scan of a string slice. -/
def contains : List String → String → Bool
  | [], _ => false
  | s :: rest, item => if s == item then true else contains rest item

/-- The `permissions.ActionType` map. Go map indexing yields the zero
value `""` for a missing key, so the model returns `""` by default. -/
def ActionType : String → String
  | "get_payment_status" => "read"
  | "get_payment_details" => "read"
  | "list_payment_methods" => "read"
  | "list_terminals" => "read"
  | "get_terminal_details" => "read"
  | "get_webhooks" => "read"
  | "list_merchants" => "read"
  | "get_merchant_details" => "read"
  | "create_payment_link" => "create"
  | "create_payment_session" => "create"
  | "refund_payment" => "refund"
  | "cancel_payment" => "cancel"
  | "expire_payment_link" => "cancel"
  | "update_terminal_settings" => "create"
  | _ => ""

/-- `permissions.Result`. Go zero values: `NeedsApproval = false`,
`Reason = ""`, `Approvers = nil` (modelled `[]`). -/
structure Result where
  Allowed : Bool
  NeedsApproval : Bool
  Reason : String
  Approvers : List String
deriving Repr, DecidableEq

/-- `permissions.Checker`: configuration plus the Slack collaborator,
reduced to the one call the checker makes,
`GetUsergroupMembers : groupID → ([]string, error)`. -/
structure Checker where
  cfg : PermissionsConfig
  slackGroups : String → Except String (List String)

/-- The group-membership loop inside `Checker.isAdmin` (lines 116-124):
a failed lookup is skipped with `continue`; a successful lookup that
contains the user returns `true`; otherwise the next group is tried. -/
def isAdminGroups (lookup : String → Except String (List String)) (userID : String) :
    List String → Bool
  | [] => false
  | g :: rest =>
    match lookup g with
    | .error _ => isAdminGroups lookup userID rest
    | .ok members =>
      if contains members userID then true else isAdminGroups lookup userID rest

/-- `Checker.isAdmin`: direct user-ID membership first, then the group
loop. Total: it always returns a `Bool`, never an error. -/
def isAdmin (c : Checker) (userID : String) : Bool :=
  if contains c.cfg.Roles.Admin.Users userID then true
  else isAdminGroups c.slackGroups userID c.cfg.Roles.Admin.Groups

/-- The loop body of `Checker.getOtherAdmins`: keep every user ID that
differs from the requester, in order. -/
def getOtherAdminsLoop (excludeUserID : String) : List String → List String
  | [] => []
  | userID :: rest =>
    if userID != excludeUserID then userID :: getOtherAdminsLoop excludeUserID rest
    else getOtherAdminsLoop excludeUserID rest

/-- `Checker.getOtherAdmins`: admin *user IDs* minus the requester
(group-resolved admins are not consulted here). -/
def getOtherAdmins (c : Checker) (excludeUserID : String) : List String :=
  getOtherAdminsLoop excludeUserID c.cfg.Roles.Admin.Users

/-- Step 2 of `Checker.Check`: resolve the action name to a category,
defaulting the Go map's zero value `""` to `"read"`. -/
def resolvedCategory (action : String) : String :=
  let actionType0 := ActionType action
  if actionType0 == "" then "read" else actionType0

/-- Step 3 of `Checker.Check`: the category's configured policy, or the
synthesized `{Level: "any", Approve: false}` when the category has
none. -/
def lookupActionCfg (perms : PermissionsConfig) (action : String) : Action :=
  match perms.Actions (resolvedCategory action) with
  | some a => a
  | none => ⟨"any", false, 0⟩

/-- `Checker.Check` (lines 51-104), translated branch for branch. -/
def Check (c : Checker) (userID channelID action : String) (amount : Int) : Result :=
  let perms := c.cfg
  -- 1. Channel restriction
  if contains perms.Channels channelID = false ∧ 0 < perms.Channels.length then
    ⟨false, false, "This bot can only be used in authorized channels.", []⟩
  else
    -- 2./3. Get action type and its config
    let actionCfg := lookupActionCfg perms action
    -- 4. Anyone can read
    if actionCfg.Level == "any" then ⟨true, false, "", []⟩
    -- 5. Check if user is admin
    else if isAdmin c userID = false then
      ⟨false, false, "Only admins can perform this action.", []⟩
    else
      -- 6. Check if approval is needed
      let needsApproval0 := actionCfg.Approve
      let needsApproval :=
        if 0 < actionCfg.MaxAmount ∧ amount ≤ actionCfg.MaxAmount then false
        else needsApproval0
      if needsApproval then ⟨true, true, "", getOtherAdmins c userID⟩
      else ⟨true, false, "", []⟩

/-! ## Configuration loading (`internal/config/config.go`, `loadPermissions`) -/

/-- The built-in default permissions from `loadPermissions`
(lines 194-209): empty channel list, empty admin role, the four default
action policies, empty audit channel. -/
def defaultPerms : PermissionsConfig :=
  ⟨[], ⟨⟨[], []⟩⟩,
   fun s =>
     if s == "refund" then some ⟨"admin", true, 10000⟩
     else if s == "cancel" then some ⟨"admin", true, 0⟩
     else if s == "create" then some ⟨"admin", false, 0⟩
     else if s == "read" then some ⟨"any", false, 0⟩
     else none,
   ""⟩

/-- `config.loadPermissions` (lines 192-220). `permJSONEnv` is the value
of the `PERMISSIONS_JSON` environment variable (`""` when unset, as in
Go), and `parse` stands for `json.Unmarshal` into `PermissionsConfig`
(`none` = unmarshal error). On a parse error the Go code falls through
to `return defaultPerms`; it does not fail. -/
def loadPermissions (parse : String → Option PermissionsConfig)
    (permJSONEnv : String) : PermissionsConfig :=
  if permJSONEnv != "" then
    match parse permJSONEnv with
    | some perms => perms
    | none => defaultPerms
  else defaultPerms

/-! ## Approval workflow (`internal/approval/approval.go`) -/

/-- `approval.Request` (lines 23-33). `Params` is the decoded JSON
argument payload; `ExpiresAt` is a Unix timestamp. -/
structure Request where
  ID : String
  Channel : String
  ThreadTs : String
  RequestedBy : String
  Action : String
  Params : List (String × JSONValue)
  Amount : Int
  ExpiresAt : Int
  Approvers : List String

/-- The DynamoDB table keyed by `pk` (the prompt message timestamp),
modelled as an association list with distinct keys. -/
def Store := List (String × Request)

/-- `Manager.get` on a healthy store: `GetItem` by key; `none` when the
item is absent (the Go code then returns `nil, nil`). -/
def storeGet : List (String × Request) → String → Option Request
  | [], _ => none
  | (k, v) :: rest, id => if k == id then some v else storeGet rest id

/-- `Manager.delete` on a healthy store: DynamoDB `DeleteItem` removes
the key and succeeds whether or not the item exists (it is idempotent;
the Go call sets no condition expression). -/
def storeDelete : List (String × Request) → String → List (String × Request)
  | [], _ => []
  | (k, v) :: rest, id =>
    if k == id then storeDelete rest id else (k, v) :: storeDelete rest id

/-- Fault injection for the two DynamoDB calls a single `HandleReaction`
invocation can make: `getFails` makes `Manager.get` return an error,
`deleteFails` makes `Manager.delete` return an error (and leave the
item in place). -/
structure StoreFault where
  getFails : Bool
  deleteFails : Bool

/-- No store fault: both DynamoDB calls succeed. -/
def noFault : StoreFault := ⟨false, false⟩

/-- Drop one trailing `':'`, as `strings.TrimSuffix(r, ":")` does. -/
def dropSuffixColon : List Char → List Char
  | [] => []
  | [c] => if c = ':' then [] else [c]
  | c :: rest => c :: dropSuffixColon rest

/-- The reaction-name normalization at the top of `HandleReaction`:
`strings.TrimPrefix(r, ":")` then `strings.TrimSuffix(r, ":")`, each
removing one delimiter when present (written over the character list
of the string). -/
def normalizeReaction (r : String) : String :=
  let r1 : String :=
    match r with
    | ⟨':' :: rest⟩ => ⟨rest⟩
    | s => s
  ⟨dropSuffixColon r1.data⟩

/-- The approve-like reaction test (line 111). -/
def isApprove (r : String) : Bool :=
  r == "white_check_mark" || r == "+1" || r == "heavy_check_mark"

/-- The reject-like reaction test (line 112). -/
def isReject (r : String) : Bool :=
  r == "x" || r == "-1" || r == "no_entry"

/-- The value of one `Manager.HandleReaction` call: the store after the
call, plus the Go return triple `(*Request, string, error)`. -/
structure HandleResult where
  store : List (String × Request)
  req : Option Request
  decision : String
  err : Option String

/-- `Manager.HandleReaction` (lines 105-147), translated branch for
branch against a store state and a fault assignment. `now` is
`time.Now().Unix()`. In the expiry branch the delete error is
discarded (`m.delete(ctx, messageTs)` with no check), so a failing
delete there leaves the record in place but still reports expiry. -/
def HandleReaction (s : List (String × Request)) (f : StoreFault) (now : Int)
    (reaction userID channel messageTs : String) : HandleResult :=
  let r := normalizeReaction reaction
  if ¬(isApprove r = true ∨ isReject r = true) then ⟨s, none, "", none⟩
  else if f.getFails then ⟨s, none, "", some "store get failed"⟩
  else
    match storeGet s messageTs with
    | none => ⟨s, none, "", none⟩  -- Not a pending approval message
    | some req =>
      if req.ExpiresAt < now then
        ⟨if f.deleteFails then s else storeDelete s messageTs,
         none, "", some "approval request has expired"⟩
      else if contains req.Approvers userID = false then
        ⟨s, none, "", none⟩  -- Ignore reactions from non-approvers
      else if f.deleteFails then
        ⟨s, none, "", some "failed to delete approval"⟩
      else if isApprove r then ⟨storeDelete s messageTs, some req, "approved", none⟩
      else ⟨storeDelete s messageTs, some req, "rejected", none⟩

/-! ## Two concurrent `HandleReaction` calls (interleaving model)

Each `HandleReaction` invocation performs at most two DynamoDB
operations: one `GetItem` and one `DeleteItem`.  DynamoDB guarantees
each single-key operation is atomic, but nothing orders the two calls'
operations.  The model below gives each invocation two atomic steps —
the get, then the (classification + approver check +) delete — and runs
both invocations under an arbitrary schedule.  Store calls are healthy
here (no fault injection): the point is the interleaving alone. -/

/-- The per-invocation inputs of a reaction-handling call. -/
structure ReactCall where
  reaction : String
  userID : String

/-- Progress of one `HandleReaction` invocation through its store
operations: before its `GetItem`; after it (recording what it saw);
finished (recording the Go return triple). -/
inductive Phase where
  | start : Phase
  | gotten (found : Option Request) : Phase
  | finished (req : Option Request) (decision : String) (err : Option String) : Phase

/-- One invocation of the handler with its progress. -/
structure ThreadState where
  call : ReactCall
  phase : Phase

/-- One atomic step of one invocation, mirroring `HandleReaction`:
the `start` step classifies the reaction and, when relevant, performs
the `GetItem`; the `gotten` step performs the remaining checks and, on
the resolving path (or the expiry path), the `DeleteItem`. -/
def stepThread (now : Int) (messageTs : String)
    (s : List (String × Request)) (t : ThreadState) :
    List (String × Request) × ThreadState :=
  match t.phase with
  | .start =>
    let r := normalizeReaction t.call.reaction
    if ¬(isApprove r = true ∨ isReject r = true) then
      (s, ⟨t.call, .finished none "" none⟩)
    else
      (s, ⟨t.call, .gotten (storeGet s messageTs)⟩)
  | .gotten found =>
    match found with
    | none => (s, ⟨t.call, .finished none "" none⟩)
    | some req =>
      if req.ExpiresAt < now then
        (storeDelete s messageTs,
         ⟨t.call, .finished none "" (some "approval request has expired")⟩)
      else if contains req.Approvers t.call.userID = false then
        (s, ⟨t.call, .finished none "" none⟩)
      else
        let r := normalizeReaction t.call.reaction
        (storeDelete s messageTs,
         ⟨t.call,
          .finished (some req) (if isApprove r then "approved" else "rejected") none⟩)
  | .finished _ _ _ => (s, t)

/-- Run two invocations under a schedule: `true` steps the first
invocation, `false` the second. -/
def runSchedule (now : Int) (messageTs : String) :
    List Bool → List (String × Request) → ThreadState → ThreadState →
    List (String × Request) × ThreadState × ThreadState
  | [], s, tA, tB => (s, tA, tB)
  | b :: rest, s, tA, tB =>
    if b then
      let p := stepThread now messageTs s tA
      runSchedule now messageTs rest p.1 p.2 tB
    else
      let p := stepThread now messageTs s tB
      runSchedule now messageTs rest p.1 tA p.2

/-! ## MCP tool bridge (`internal/adyen/client.go`) -/

/-- `adyen.ContentBlock`. -/
structure ContentBlock where
  Type' : String
  Text : String
deriving Repr, DecidableEq

/-- `adyen.CallToolResult`. -/
structure CallToolResult where
  Content : List ContentBlock
  IsError : Bool
deriving Repr, DecidableEq

/-- `adyen.MCPError`. -/
structure MCPError where
  Code : Int
  Message : String
deriving Repr, DecidableEq

/-- `adyen.MCPResponse`. `Result` is `json.RawMessage` in Go and is
unmarshalled into `CallToolResult` by `CallTool`; `none` models a raw
result that fails that unmarshal (or is absent). -/
structure MCPResponse where
  ID : Int
  Error : Option MCPError
  Result : Option CallToolResult
deriving Repr, DecidableEq

/-- `adyen.MCPRequest` as built by `CallTool`: `jsonrpc = "2.0"`, the
incremented id, `method = "tools/call"`, and the tool name/arguments. -/
structure MCPRequest where
  JSONRPC : String
  ID : Int
  Method : String
  ParamsName : String
  ParamsArguments : List (String × JSONValue)

/-- What the child process does with the one framed request of a
`sendRequest` call: answer with one newline-terminated frame that
decodes to `resp`, or make the write, the read, or the response decode
fail. -/
inductive BridgeAnswer where
  | ok (resp : MCPResponse) : BridgeAnswer
  | writeErr (msg : String) : BridgeAnswer
  | readErr (msg : String) : BridgeAnswer
  | decodeErr (msg : String) : BridgeAnswer

/-- `Client.sendRequest` (lines 244-271): write the frame, read one
line, decode it, and turn a top-level protocol `error` member into a Go
error; otherwise hand the decoded response back. -/
def sendRequest (req : MCPRequest) (ans : BridgeAnswer) : Except String MCPResponse :=
  match req, ans with
  | _, .writeErr m => .error ("failed to write request: " ++ m)
  | _, .readErr m => .error ("failed to read response: " ++ m)
  | _, .decodeErr m => .error ("failed to parse response: " ++ m)
  | _, .ok resp =>
    match resp.Error with
    | some e => .error ("MCP error " ++ toString e.Code ++ ": " ++ e.Message)
    | none => .ok resp

/-- The text-concatenation loop of `CallTool` (lines 179-184): fold the
content blocks in order, appending `block.Text` for the blocks whose
`Type` is `"text"`. -/
def concatText (blocks : List ContentBlock) : String :=
  blocks.foldl (fun acc b => if b.Type' == "text" then acc ++ b.Text else acc) ""

/-- `Client.CallTool` (lines 147-187). `requestID` is the client's
counter before the call (the request carries `requestID + 1`); `ans` is
the child process's answer to this one request. -/
def CallTool (requestID : Int) (name : String)
    (arguments : List (String × JSONValue)) (ans : BridgeAnswer) :
    Except String String :=
  let req : MCPRequest := ⟨"2.0", requestID + 1, "tools/call", name, arguments⟩
  match sendRequest req ans with
  | .error e => .error e
  | .ok resp =>
    match resp.Result with
    | none => .error "failed to parse tool result"
    | some result =>
      if result.IsError then
        match result.Content with
        | [] => .error "tool execution failed"
        | b :: _ => .error ("tool error: " ++ b.Text)
      else
        .ok (concatText result.Content)

/-- Spec-side description, for comparison with what `CallTool` does on
an application-level failure: the *first textual* content block, i.e.
the first block whose `Type` is `"text"`. -/
def firstTextualBlock (blocks : List ContentBlock) : Option ContentBlock :=
  blocks.find? (fun b => b.Type' == "text")

/-! ## Amount extraction and the caller's decision
(`cmd/processor/main.go`) -/

/-- `extractAmount` (lines 397-408): `args["amount"].(map)["value"]`
as a number, else `args["amount"]` as a number, else `0`.  When
`args["amount"]` is an object whose `"value"` is not a number, both Go
type assertions fail and the function returns `0`. -/
def extractAmount (args : List (String × JSONValue)) : Int :=
  match lookupField args "amount" with
  | some (.obj m) =>
    match lookupField m "value" with
    | some (.num v) => v
    | _ => 0
  | some (.num v) => v
  | _ => 0

/-- The three ways `handleMessage` (lines 311-350) can route one tool
call after the permission check. -/
inductive ToolCallOutcome where
  | deny (reason : String) : ToolCallOutcome
  | requestApproval (approvers : List String) : ToolCallOutcome
  | execute : ToolCallOutcome
deriving Repr, DecidableEq

/-- The routing decision `handleMessage` makes for one tool call:
extract the amount, run `Check`, then deny / request approval / execute
the tool directly. -/
def toolCallDecision (c : Checker) (user channel toolName : String)
    (args : List (String × JSONValue)) : ToolCallOutcome :=
  let amount := extractAmount args
  let permResult := Check c user channel toolName amount
  if permResult.Allowed = false then .deny permResult.Reason
  else if permResult.NeedsApproval then .requestApproval permResult.Approvers
  else .execute

/-! ## Helper lemmas -/

theorem storeGet_storeDelete_self (s : List (String × Request)) (id : String) :
    storeGet (storeDelete s id) id = none := by
  induction s with
  | nil => rfl
  | cons p rest ih =>
    obtain ⟨k, v⟩ := p
    by_cases h : k == id
    · simpa [storeDelete, h] using ih
    · simpa [storeDelete, storeGet, h] using ih

theorem mem_getOtherAdminsLoop (ex x : String) (l : List String) :
    x ∈ getOtherAdminsLoop ex l ↔ (x ∈ l ∧ x ≠ ex) := by
  induction l with
  | nil => simp [getOtherAdminsLoop]
  | cons u rest ih =>
    by_cases h : u = ex
    · subst h
      simp [getOtherAdminsLoop, ih]
      tauto
    · have hxe : x = u → x ≠ ex := fun hx => hx ▸ h
      simp [getOtherAdminsLoop, bne_iff_ne.mpr h, ih]
      tauto

theorem isAdminGroups_error_cons (lk : String → Except String (List String))
    (u g : String) (rest : List String) (e : String) (h : lk g = .error e) :
    isAdminGroups lk u (g :: rest) = isAdminGroups lk u rest := by
  simp [isAdminGroups, h]

theorem isAdminGroups_all_error (lk : String → Except String (List String))
    (u : String) (gs : List String) (h : ∀ g ∈ gs, ∃ e, lk g = .error e) :
    isAdminGroups lk u gs = false := by
  induction gs with
  | nil => rfl
  | cons g rest ih =>
    obtain ⟨e, he⟩ := h g (List.mem_cons_self g rest)
    rw [isAdminGroups_error_cons lk u g rest e he]
    exact ih fun g' hg' => h g' (List.mem_cons_of_mem g hg')

/-- `Check` characterization: whenever the verdict requires approval,
it is exactly the `AllowedPendingApproval` result built from
`getOtherAdmins`. -/
theorem check_needsApproval_eq (c : Checker) (u ch act : String) (amt : Int)
    (h : (Check c u ch act amt).NeedsApproval = true) :
    Check c u ch act amt = ⟨true, true, "", getOtherAdmins c u⟩ := by
  by_cases h1 : (contains c.cfg.Channels ch = false ∧ 0 < c.cfg.Channels.length)
  · rw [Check] at h
    simp only [if_pos h1] at h
    exact absurd h (by simp)
  · by_cases h2 : ((lookupActionCfg c.cfg act).Level == "any") = true
    · rw [Check] at h
      simp only [if_neg h1, h2, if_pos] at h
      exact absurd h (by simp)
    · by_cases h3 : isAdmin c u = false
      · rw [Check] at h
        simp only [if_neg h1, h2, h3] at h
        simp at h
      · by_cases h4 : (0 < (lookupActionCfg c.cfg act).MaxAmount ∧
            amt ≤ (lookupActionCfg c.cfg act).MaxAmount)
        · rw [Check] at h
          simp only [if_neg h1, h2, h3, if_pos h4] at h
          simp at h
        · by_cases h5 : (lookupActionCfg c.cfg act).Approve = true
          · rw [Check]
            simp only [if_neg h1, h2, h3, if_neg h4, h5]
            simp
          · rw [Check] at h
            simp only [if_neg h1, h2, h3, if_neg h4] at h
            simp [h5] at h

/-! ## Fixtures (concrete configurations used by witnesses and
counterexamples) -/

/-- A concrete checker: one allowed channel, two admin user IDs, one
admin group whose Slack lookup succeeds with one further member. -/
def checkerEx : Checker :=
  ⟨⟨["CH1"], ⟨⟨["U1", "U2"], ["G1"]⟩⟩,
    (fun s =>
      if s == "refund" then some ⟨"admin", true, 10000⟩
      else if s == "cancel" then some ⟨"admin", true, 0⟩
      else if s == "create" then some ⟨"admin", false, 0⟩
      else if s == "read" then some ⟨"any", false, 0⟩
      else none),
    ""⟩,
   fun g => if g == "G1" then .ok ["U9"] else .error "no such group"⟩

/-- A Slack lookup that always fails. -/
def failingLookup : String → Except String (List String) :=
  fun _ => .error "slack is down"

/-- A checker whose every group lookup fails. -/
def checkerAllFail : Checker :=
  ⟨⟨["CH1"], ⟨⟨["U1"], ["G1", "G2"]⟩⟩, (fun _ => none), ""⟩, failingLookup⟩

/-! ## Claim theorems: permission evaluation -/

/-- C8: with a non-empty channel allow-list, a check from a channel
outside the list is denied for every user, action and amount. -/
theorem check_channel_allowlist_denied (c : Checker) (u ch act : String) (amt : Int)
    (hne : c.cfg.Channels ≠ [])
    (hout : contains c.cfg.Channels ch = false) :
    Check c u ch act amt =
      ⟨false, false, "This bot can only be used in authorized channels.", []⟩ := by
  have hlen : 0 < c.cfg.Channels.length := List.length_pos.mpr hne
  rw [Check]
  simp [hout, hlen]

theorem check_channel_allowlist_denied_witness :
    Check checkerEx "U1" "CH_OTHER" "refund_payment" 5 =
      ⟨false, false, "This bot can only be used in authorized channels.", []⟩ :=
  check_channel_allowlist_denied checkerEx "U1" "CH_OTHER" "refund_payment" 5
    (by decide) rfl

/-- C2: for an admin user in an allowed channel and an admin-level
policy with `Approve = true` and `MaxAmount = t > 0`, an amount equal
to `t` needs no approval (inclusive boundary) and an amount of `t + 1`
yields the pending-approval verdict. -/
theorem check_threshold_boundary (c : Checker) (u ch act : String) (t : Int)
    (hch : contains c.cfg.Channels ch = true)
    (hcat : lookupActionCfg c.cfg act = ⟨"admin", true, t⟩)
    (ht : 0 < t)
    (hadm : isAdmin c u = true) :
    Check c u ch act t = ⟨true, false, "", []⟩ ∧
    Check c u ch act (t + 1) = ⟨true, true, "", getOtherAdmins c u⟩ := by
  have hle : t ≤ t := le_refl t
  have hnle : ¬(t + 1 ≤ t) := by omega
  constructor
  · rw [Check]
    simp [hch, hcat, hadm, ht, hle]
  · rw [Check]
    simp [hch, hcat, hadm, ht, hnle]

theorem check_threshold_boundary_witness :
    Check checkerEx "U1" "CH1" "refund_payment" 10000 = ⟨true, false, "", []⟩ ∧
    Check checkerEx "U1" "CH1" "refund_payment" (10000 + 1) =
      ⟨true, true, "", getOtherAdmins checkerEx "U1"⟩ :=
  check_threshold_boundary checkerEx "U1" "CH1" "refund_payment" 10000
    rfl rfl (by decide) rfl

/-- C6 counterexample: `U9` is an admin (via the configured group
`G1`), is not the requester `U1`, yet is absent from the approvers the
pending-approval verdict carries — the code builds approvers from the
configured admin *user IDs* only. -/
theorem check_group_admin_excluded_counterexample :
    (Check checkerEx "U1" "CH1" "refund_payment" 20000).NeedsApproval = true ∧
    isAdmin checkerEx "U9" = true ∧
    "U9" ≠ "U1" ∧
    (Check checkerEx "U1" "CH1" "refund_payment" 20000).Approvers.contains "U9" = false := by
  refine ⟨rfl, rfl, by decide, rfl⟩

/-- C6 (amended): whenever `Check` requires approval for requester `u`,
its approvers are exactly the *configured admin user IDs* other than
`u` (group-membership admins are not included). -/
theorem check_approvers_are_other_admin_users (c : Checker) (u ch act : String)
    (amt : Int) (x : String)
    (h : (Check c u ch act amt).NeedsApproval = true) :
    (x ∈ (Check c u ch act amt).Approvers ↔
      (x ∈ c.cfg.Roles.Admin.Users ∧ x ≠ u)) := by
  rw [check_needsApproval_eq c u ch act amt h]
  simpa [getOtherAdmins] using mem_getOtherAdminsLoop u x c.cfg.Roles.Admin.Users

theorem check_approvers_are_other_admin_users_witness :
    ("U2" ∈ (Check checkerEx "U1" "CH1" "refund_payment" 20000).Approvers ↔
      ("U2" ∈ checkerEx.cfg.Roles.Admin.Users ∧ "U2" ≠ "U1")) :=
  check_approvers_are_other_admin_users checkerEx "U1" "CH1" "refund_payment" 20000 "U2" rfl

/-- C7: a failing group lookup is skipped (the remaining groups are
still consulted) and can never grant admin status: with the user
outside the configured admin IDs and every group lookup failing,
`isAdmin` is `false`.  `isAdmin` is a total `Bool`-valued function, so
a lookup failure can neither abort the evaluation nor surface as an
error. -/
theorem isAdmin_group_lookup_failure :
    (∀ (lk : String → Except String (List String)) (u g : String)
       (rest : List String) (e : String), lk g = .error e →
       isAdminGroups lk u (g :: rest) = isAdminGroups lk u rest) ∧
    (∀ (c : Checker) (u : String),
       contains c.cfg.Roles.Admin.Users u = false →
       (∀ g ∈ c.cfg.Roles.Admin.Groups, ∃ e, c.slackGroups g = .error e) →
       isAdmin c u = false) := by
  constructor
  · exact isAdminGroups_error_cons
  · intro c u hu hall
    rw [isAdmin]
    simp only [hu]
    simpa using isAdminGroups_all_error c.slackGroups u _ hall

theorem isAdmin_group_lookup_failure_witness :
    (isAdminGroups failingLookup "U7" ["G1", "G2"] =
      isAdminGroups failingLookup "U7" ["G2"]) ∧
    isAdmin checkerAllFail "U7" = false :=
  ⟨isAdmin_group_lookup_failure.1 failingLookup "U7" "G1" ["G2"] "slack is down" rfl,
   isAdmin_group_lookup_failure.2 checkerAllFail "U7" rfl
     (fun _ _ => ⟨"slack is down", rfl⟩)⟩

/-- C10: with an admin-level policy requiring approval above a positive
threshold, an extracted amount of `0` is under the threshold, so the
verdict is `Allowed` with no approval; since `extractAmount` yields `0`
when the arguments carry no `amount` field, the caller routes such a
tool call straight to execution, creating no approval request. -/
theorem check_zero_amount_executes (c : Checker) (u ch act : String)
    (args : List (String × JSONValue)) (M : Int)
    (hch : contains c.cfg.Channels ch = true)
    (hcat : lookupActionCfg c.cfg act = ⟨"admin", true, M⟩)
    (hM : 0 < M)
    (hadm : isAdmin c u = true)
    (hargs : lookupField args "amount" = none) :
    extractAmount args = 0 ∧
    Check c u ch act 0 = ⟨true, false, "", []⟩ ∧
    toolCallDecision c u ch act args = .execute := by
  have hle : (0 : Int) ≤ M := le_of_lt hM
  have hext : extractAmount args = 0 := by
    rw [extractAmount, hargs]
  have hchk : Check c u ch act 0 = ⟨true, false, "", []⟩ := by
    rw [Check]
    simp [hch, hcat, hadm, hM, hle]
  refine ⟨hext, hchk, ?_⟩
  rw [toolCallDecision]
  simp only [hext, hchk]
  rfl

theorem check_zero_amount_executes_witness :
    extractAmount [("paymentPspReference", JSONValue.str "QWERTY123")] = 0 ∧
    Check checkerEx "U1" "CH1" "refund_payment" 0 = ⟨true, false, "", []⟩ ∧
    toolCallDecision checkerEx "U1" "CH1" "refund_payment"
      [("paymentPspReference", JSONValue.str "QWERTY123")] = .execute :=
  check_zero_amount_executes checkerEx "U1" "CH1" "refund_payment"
    [("paymentPspReference", JSONValue.str "QWERTY123")] 10000
    rfl rfl (by decide) rfl rfl

/-! ## Claim theorems: approval workflow -/

/-- A concrete pending request used by approval fixtures. -/
def reqEx : Request :=
  ⟨"TS1", "CH1", "TH1", "U1", "refund_payment", [], 20000, 100, ["U2", "U3"]⟩

/-- A store holding exactly the pending request `reqEx`. -/
def storeEx : List (String × Request) := [("TS1", reqEx)]

/-- C1: with healthy store calls, an approve- or reject-like reaction
on a present but expired request deletes the record (it is gone from
the resulting store) and returns the expiry error with no request and
no decision; while a reaction whose target has no stored record
returns no request, no decision, and no error. -/
theorem handleReaction_expired_deleted_and_distinct :
    (∀ (s : List (String × Request)) (now : Int) (reaction u ch ts : String)
       (req : Request),
       (isApprove (normalizeReaction reaction) = true ∨
         isReject (normalizeReaction reaction) = true) →
       storeGet s ts = some req →
       req.ExpiresAt < now →
       HandleReaction s noFault now reaction u ch ts =
         ⟨storeDelete s ts, none, "", some "approval request has expired"⟩ ∧
       storeGet (HandleReaction s noFault now reaction u ch ts).store ts = none) ∧
    (∀ (s : List (String × Request)) (now : Int) (reaction u ch ts : String),
       storeGet s ts = none →
       HandleReaction s noFault now reaction u ch ts = ⟨s, none, "", none⟩) := by
  constructor
  · intro s now reaction u ch ts req hr hget hexp
    have heq : HandleReaction s noFault now reaction u ch ts =
        ⟨storeDelete s ts, none, "", some "approval request has expired"⟩ := by
      rw [HandleReaction]
      simp [noFault, hget, hexp, hr]
    exact ⟨heq, by rw [heq]; exact storeGet_storeDelete_self s ts⟩
  · intro s now reaction u ch ts hget
    rw [HandleReaction]
    by_cases hr : (isApprove (normalizeReaction reaction) = true ∨
        isReject (normalizeReaction reaction) = true)
    · simp [noFault, hget, hr]
    · simp [hr]

theorem handleReaction_expired_deleted_and_distinct_witness :
    (HandleReaction storeEx noFault 200 ":white_check_mark:" "U2" "CH1" "TS1" =
      ⟨storeDelete storeEx "TS1", none, "", some "approval request has expired"⟩ ∧
     storeGet (HandleReaction storeEx noFault 200 ":white_check_mark:" "U2" "CH1" "TS1").store
       "TS1" = none) ∧
    HandleReaction storeEx noFault 200 ":white_check_mark:" "U2" "CH1" "TS9" =
      ⟨storeEx, none, "", none⟩ :=
  ⟨handleReaction_expired_deleted_and_distinct.1 storeEx 200 ":white_check_mark:"
     "U2" "CH1" "TS1" reqEx (Or.inl (by rfl)) rfl (by decide),
   handleReaction_expired_deleted_and_distinct.2 storeEx 200 ":white_check_mark:"
     "U2" "CH1" "TS9" rfl⟩

/-- C9: when an eligible approver reacts to a present, unexpired
request and the store delete fails, `HandleReaction` surfaces the store
error with no request and no decision and the record still in place;
and in general a non-nil returned request implies the delete succeeded
and the record is gone from the store. -/
theorem handleReaction_delete_failure :
    (∀ (s : List (String × Request)) (now : Int) (reaction u ch ts : String)
       (req : Request),
       (isApprove (normalizeReaction reaction) = true ∨
         isReject (normalizeReaction reaction) = true) →
       storeGet s ts = some req →
       ¬(req.ExpiresAt < now) →
       contains req.Approvers u = true →
       HandleReaction s ⟨false, true⟩ now reaction u ch ts =
         ⟨s, none, "", some "failed to delete approval"⟩) ∧
    (∀ (s : List (String × Request)) (f : StoreFault) (now : Int)
       (reaction u ch ts : String) (r : Request),
       (HandleReaction s f now reaction u ch ts).req = some r →
       f.deleteFails = false ∧
       storeGet (HandleReaction s f now reaction u ch ts).store ts = none) := by
  constructor
  · intro s now reaction u ch ts req hr hget hexp happ
    rw [HandleReaction]
    simp [hr, hget, hexp, happ]
  · intro s f now reaction u ch ts r
    rw [HandleReaction]
    by_cases hr : (isApprove (normalizeReaction reaction) = true ∨
        isReject (normalizeReaction reaction) = true)
    · cases hG : f.getFails
      · rcases hget : storeGet s ts with _ | req
        · simp [hr, hG, hget]
        · by_cases hexp : req.ExpiresAt < now
          · simp [hr, hG, hget, hexp]
          · by_cases happ : contains req.Approvers u = false
            · simp [hr, hG, hget, hexp, happ]
            · cases hD : f.deleteFails
              · by_cases hap : isApprove (normalizeReaction reaction) = true
                · simp [hr, hG, hget, hexp, happ, hD, hap,
                    storeGet_storeDelete_self]
                · have hrj : isReject (normalizeReaction reaction) = true :=
                    hr.resolve_left hap
                  simp [hrj, hG, hget, hexp, happ, hD, hap,
                    storeGet_storeDelete_self]
              · simp [hr, hG, hget, hexp, happ, hD]
      · simp [hr, hG]
    · simp [hr]

theorem handleReaction_delete_failure_witness :
    HandleReaction storeEx ⟨false, true⟩ 50 "x" "U3" "CH1" "TS1" =
      ⟨storeEx, none, "", some "failed to delete approval"⟩ ∧
    ((HandleReaction storeEx noFault 50 "x" "U3" "CH1" "TS1").req = some reqEx →
      noFault.deleteFails = false ∧
      storeGet (HandleReaction storeEx noFault 50 "x" "U3" "CH1" "TS1").store "TS1" = none) :=
  ⟨handleReaction_delete_failure.1 storeEx 50 "x" "U3" "CH1" "TS1" reqEx
     (Or.inr (by rfl)) rfl (by decide) rfl,
   handleReaction_delete_failure.2 storeEx noFault 50 "x" "U3" "CH1" "TS1" reqEx⟩

/-- One approve-like reaction call from eligible approver `U2`. -/
def threadApprove : ThreadState := ⟨⟨"white_check_mark", "U2"⟩, .start⟩

/-- One reject-like reaction call from eligible approver `U3`. -/
def threadReject : ThreadState := ⟨⟨"x", "U3"⟩, .start⟩

/-- C3 failing run: under the interleaving get-A, get-B, delete-A,
delete-B against the same present, unexpired request, *both* handler
calls see the record (each `GetItem` precedes both `DeleteItem`s, and
DynamoDB's unconditional `DeleteItem` of an absent key succeeds), so
both return a non-nil decision — one "approved" and one "rejected" —
contradicting the claimed exactly-one resolution. -/
theorem handleReaction_race_double_decision :
    (runSchedule 50 "TS1" [true, false, true, false] storeEx
        threadApprove threadReject).2.1.phase =
      Phase.finished (some reqEx) "approved" none ∧
    (runSchedule 50 "TS1" [true, false, true, false] storeEx
        threadApprove threadReject).2.2.phase =
      Phase.finished (some reqEx) "rejected" none := by
  constructor
  · rfl
  · rfl

/-! ## Claim theorems: configuration loading -/

/-- A stand-in for `json.Unmarshal` applied to malformed input: the
decode fails on every string. -/
def badParse : String → Option PermissionsConfig := fun _ => none

/-- C4 counterexample: with `PERMISSIONS_JSON` set to a malformed
document (every decode fails), `loadPermissions` does not fail — it
silently returns the built-in defaults, and a subsequent evaluation
against the resulting policy runs and produces a verdict. -/
theorem loadPermissions_malformed_not_fatal :
    loadPermissions badParse "this is not json" = defaultPerms ∧
    Check ⟨loadPermissions badParse "this is not json", fun _ => .ok []⟩
        "U1" "C_ANY" "get_payment_status" 0 = ⟨true, false, "", []⟩ := by
  constructor
  · rfl
  · rfl

/-- C4 (amended): a malformed `PERMISSIONS_JSON` is silently ignored:
`loadPermissions` falls back to the built-in default permissions (so no
evaluation ever runs against an *undefined* policy, but the process is
not stopped). -/
theorem loadPermissions_malformed_falls_back
    (parse : String → Option PermissionsConfig) (s : String)
    (hs : s ≠ "") (hp : parse s = none) :
    loadPermissions parse s = defaultPerms := by
  rw [loadPermissions]
  simp [bne_iff_ne.mpr hs, hp]

theorem loadPermissions_malformed_falls_back_witness :
    loadPermissions badParse "oops]" = defaultPerms :=
  loadPermissions_malformed_falls_back badParse "oops]" (by decide) rfl

/-! ## Claim theorems: MCP tool bridge -/

/-- Spec-side description of the returned text on success: the in-order
concatenation of the content blocks' text. -/
def textsConcat : List ContentBlock → String
  | [] => ""
  | b :: rest => b.Text ++ textsConcat rest

theorem concatText_go (blocks : List ContentBlock) (acc : String)
    (h : ∀ b ∈ blocks, b.Type' = "text") :
    blocks.foldl (fun acc b => if b.Type' == "text" then acc ++ b.Text else acc) acc
      = acc ++ textsConcat blocks := by
  induction blocks generalizing acc with
  | nil => simp [textsConcat, String.append_empty]
  | cons b rest ih =>
    have hb : b.Type' = "text" := h b (List.mem_cons_self b rest)
    simp only [List.foldl_cons, textsConcat, hb, beq_self_eq_true, if_true]
    rw [ih _ (fun b' hb' => h b' (List.mem_cons_of_mem b hb')),
      String.append_assoc]

/-- When every block is textual, the `CallTool` fold concatenates all
of them in order. -/
theorem concatText_eq_textsConcat (blocks : List ContentBlock)
    (h : ∀ b ∈ blocks, b.Type' = "text") :
    concatText blocks = textsConcat blocks := by
  rw [concatText, concatText_go blocks "" h]
  exact String.empty_append _

/-- C5 counterexample response: an application-level failure whose
*first* block is a non-text block with empty `text`, followed by a text
block `"boom"`. -/
def respFirstBlockNonText : MCPResponse :=
  ⟨1, none, some ⟨[⟨"image", ""⟩, ⟨"text", "boom"⟩], true⟩⟩

/-- C5 counterexample: on an application-level failure `CallTool` uses
`result.Content[0].Text` — here the empty text of a *non-text* first
block — not the first *textual* content block (`"boom"`), so the error
message the claim prescribes differs from the one the code produces. -/
theorem callTool_first_textual_counterexample :
    firstTextualBlock [ContentBlock.mk "image" "", ContentBlock.mk "text" "boom"] =
      some (ContentBlock.mk "text" "boom") ∧
    CallTool 0 "refund_payment" [] (.ok respFirstBlockNonText) =
      .error "tool error: " ∧
    ("tool error: " : String) ≠ "tool error: boom" := by
  refine ⟨rfl, rfl, by decide⟩

/-- C5 (amended): a matching successful response made of textual
content blocks yields exactly their in-order concatenation with no
error; a top-level protocol error yields the bridge error built from
its code and message; an application-level failure yields a tool error
whose message is the `text` field of the *first* content block,
whatever its type. -/
theorem callTool_roundtrip_and_errors :
    (∀ (rid : Int) (name : String) (args : List (String × JSONValue))
       (resp : MCPResponse) (res : CallToolResult),
       resp.ID = rid + 1 → resp.Error = none → resp.Result = some res →
       res.IsError = false →
       (∀ b ∈ res.Content, b.Type' = "text") →
       CallTool rid name args (.ok resp) = .ok (textsConcat res.Content)) ∧
    (∀ (rid : Int) (name : String) (args : List (String × JSONValue))
       (resp : MCPResponse) (e : MCPError),
       resp.Error = some e →
       CallTool rid name args (.ok resp) =
         .error ("MCP error " ++ toString e.Code ++ ": " ++ e.Message)) ∧
    (∀ (rid : Int) (name : String) (args : List (String × JSONValue))
       (resp : MCPResponse) (res : CallToolResult) (b : ContentBlock)
       (rest : List ContentBlock),
       resp.Error = none → resp.Result = some res → res.IsError = true →
       res.Content = b :: rest →
       CallTool rid name args (.ok resp) = .error ("tool error: " ++ b.Text)) := by
  refine ⟨?_, ?_, ?_⟩
  · intro rid name args resp res hid herr hres hise htext
    rw [CallTool, sendRequest]
    simp [herr, hres, hise, concatText_eq_textsConcat res.Content htext]
  · intro rid name args resp e herr
    rw [CallTool, sendRequest]
    simp [herr]
  · intro rid name args resp res b rest herr hres hise hcontent
    rw [CallTool, sendRequest]
    simp [herr, hres, hise, hcontent]

/-- A successful response carrying the single text block `"refund ok"`
with id `1` (matching request id `0 + 1`). -/
def respSingleText : MCPResponse :=
  ⟨1, none, some ⟨[⟨"text", "refund ok"⟩], false⟩⟩

/-- A response carrying a top-level protocol error. -/
def respProtocolError : MCPResponse := ⟨1, some ⟨-32600, "Invalid Request"⟩, none⟩

/-- A failing result whose first block is the text `"card declined"`. -/
def respToolError : MCPResponse :=
  ⟨1, none, some ⟨[⟨"text", "card declined"⟩], true⟩⟩

theorem callTool_roundtrip_and_errors_witness :
    CallTool 0 "refund_payment" [] (.ok respSingleText) =
      .ok (textsConcat [ContentBlock.mk "text" "refund ok"]) ∧
    CallTool 0 "refund_payment" [] (.ok respProtocolError) =
      .error ("MCP error " ++ toString (-32600 : Int) ++ ": " ++ "Invalid Request") ∧
    CallTool 0 "refund_payment" [] (.ok respToolError) =
      .error ("tool error: " ++ "card declined") :=
  ⟨callTool_roundtrip_and_errors.1 0 "refund_payment" [] respSingleText
     ⟨[⟨"text", "refund ok"⟩], false⟩ rfl rfl rfl rfl
     (by intro b hb; simp at hb; rw [hb]),
   callTool_roundtrip_and_errors.2.1 0 "refund_payment" [] respProtocolError
     ⟨-32600, "Invalid Request"⟩ rfl,
   callTool_roundtrip_and_errors.2.2 0 "refund_payment" [] respToolError
     ⟨[⟨"text", "card declined"⟩], true⟩ ⟨"text", "card declined"⟩ [] rfl rfl rfl rfl⟩

end AdyenSlack
